import Mathlib

/-!
Shallow embedding of `src/procS1StackRTC.py` (hyp3-giant), the Sentinel-1 RTC
stack-reconciliation pipeline, together with proofs of the specification
claims about it.

External collaborators (GDAL raster I/O, numpy elementwise kernels, the glob
filesystem lookups, and the external annotate/animate tools) are modelled by
an `Env` record of pure oracle functions; the pipeline logic itself is
translated line by line from the Python source.  Rasters carry a flattened
pixel array over `ℚ` (idealizing IEEE floats); the one genuinely
real-valued kernel (`np.sqrt`) is modelled over `ℝ`.

Python exceptions are modelled as `none` / `PyResult.exn`, and `mexit(code)`
(close the run log, then `exit(code)`) as `PyResult.fatal code`.
-/

namespace ProcS1

/-! ## Python string primitives used by the source -/

/-- Worker for `strFind`: index (from offset `i`) of the first occurrence of
`pat`, or `-1`.  Models Python `str.find`. -/
def goFind (pat : List Char) : List Char → Nat → Int
  | [], i => if pat.isPrefixOf ([] : List Char) then (i : Int) else -1
  | l@(_ :: t), i => if pat.isPrefixOf l then (i : Int) else goFind pat t (i + 1)

/-- Python `s.find(pat)`: index of first occurrence of `pat` in `s`, else `-1`. -/
def strFind (s pat : String) : Int := goFind pat.data s.data 0

/-- Python `pat in s` (substring containment). -/
def pyIn (pat s : String) : Bool := strFind s pat != -1

/-- Python `s[i:]`, including the negative-index convention: a negative `i`
counts from the end, clamped at the start of the string (so `s[-1:]` is the
last character and `s[-1000:]` is all of `s`). -/
def pySlice (s : String) (i : Int) : String :=
  if 0 ≤ i then String.mk (s.data.drop i.toNat)
  else String.mk (s.data.drop (s.data.length - (-i).toNat))

/-- Fueled worker for `pyReplace`; fuel bounds the number of characters
consumed, so the recursion is structural and kernel-reducible. -/
def replAux (pat rep : List Char) : Nat → List Char → List Char
  | 0, l => l
  | _ + 1, [] => []
  | n + 1, c :: t =>
    if pat.isPrefixOf (c :: t) then rep ++ replAux pat rep n (t.drop (pat.length - 1))
    else c :: replAux pat rep n t

/-- Python `s.replace(pat, rep)` for a non-empty `pat`: replace every
non-overlapping occurrence, scanning left to right. -/
def pyReplace (s pat rep : String) : String :=
  String.mk (replAux pat.data rep.data s.data.length s.data)

/-- Fueled worker for `pySplit` (`acc` is the current field, reversed). -/
def splitAux (sep : List Char) : Nat → List Char → List Char → List (List Char)
  | 0, _, acc => [acc.reverse]
  | _ + 1, [], acc => [acc.reverse]
  | n + 1, c :: t, acc =>
    if sep.isPrefixOf (c :: t) then
      acc.reverse :: splitAux sep n (t.drop (sep.length - 1)) []
    else splitAux sep n t (c :: acc)

/-- Python `s.split(sep)` for a non-empty separator: always returns at least
one (possibly empty) field. -/
def pySplit (s sep : String) : List String :=
  (splitAux sep.data (s.data.length + 1) s.data []).map String.mk

/-- Python `os.path.basename`: the part after the last `/`. -/
def basename (s : String) : String := (pySplit s "/").getLastD s

/-- Python `int` on a string of ASCII digits. -/
def digitsToNat (l : List Char) : Nat := l.foldl (fun a c => a * 10 + (c.toNat - 48)) 0

/-- Semantics of `re.search("(\\d+)(.)", s)` (line 195): the match at the first
digit position takes the maximal digit run there; if the run extends to the end
of the string, backtracking hands its last digit to the `(.)` group, and a
single final digit fails to match at all (newlines are modelled as ordinary
characters, as projection strings contain none). -/
def searchDigitsChar : List Char → Option (List Char × Char)
  | [] => none
  | c :: t =>
    if c.isDigit then
      let run := List.takeWhile Char.isDigit (c :: t)
      match List.dropWhile Char.isDigit (c :: t) with
      | r :: _ => some (run, r)
      | [] => if 2 ≤ run.length then some (run.dropLast, run.getLastD '0') else none
    else searchDigitsChar t

/-- Semantics of `re.search("(\\d+)", s)` (line 205): the maximal digit run at
the first digit position, or `none` when `s` has no digit (in which case the
source's `.groups()` call raises `AttributeError`). -/
def firstDigitRun : List Char → Option (List Char)
  | [] => none
  | c :: t => if c.isDigit then some (List.takeWhile Char.isDigit (c :: t)) else firstDigitRun t

/-- Python `list.index`: index of the first occurrence, `none` for the
`ValueError` case. -/
def pyIndex : List String → String → Option Nat
  | [], _ => none
  | a :: t, x => if a = x then some 0 else (pyIndex t x).map (· + 1)

/-- Python `int()` truncation (toward zero) of a float, on our `ℚ` model. -/
def pyInt (q : ℚ) : Int := q.num / (q.den : Int)

/-- Rendering of a number inside a Python `format` string (idealized: `ℚ`
values print via `toString`, where CPython would print float syntax). -/
def qstr (q : ℚ) : String := toString q

/-! ## Data model: rasters and the external-collaborator environment -/

/-- Contents of a geocoded raster as the source reads it through
`saa.read_gdal_file`: width `x`, height `y`, the pixel size `trans[1]` of its
geotransform, its projection string, and the pixel array (flattened; the
source only ever sums over it, reads it elementwise, or tests membership). -/
structure Raster where
  x : Nat
  y : Nat
  pixsize : ℚ
  proj : String
  data : List ℚ
deriving DecidableEq, Repr

/-- Bounding box `(ULE, ULN, LRE, LRN)` as passed to `--clip`. -/
abbrev Box := ℚ × ℚ × ℚ × ℚ

/-- Oracles for the external collaborators: GDAL reads (`raster`), the
clip-to-box translate-and-read performed by `cut` (`clip`),
`cutGeotiffsByLine` (`cutOverlap`), the two `glob` lookups of
`getXmlFiles` composed (`xmlForDate`, `none` when a glob comes back empty and
`[0]` raises `IndexError`), `readlines` on an ISO XML file (`xmlLines`), and
the elementwise `np.log` kernel (`log`). -/
structure Env where
  raster : String → Raster
  clip : String → Box → Raster
  cutOverlap : List String → List String
  xmlForDate : String → Option String
  xmlLines : String → List String
  log : ℚ → ℚ

/-- Outcome of running a fragment of the pipeline: normal value, `mexit(code)`
(the run log is closed and the process exits with `code`), or an uncaught
Python exception. -/
inductive PyResult (α : Type) where
  | ok (val : α)
  | fatal (code : Nat)
  | exn
deriving DecidableEq, Repr

/-! ## cut (lines 133-144) -/

/-- Output name chosen by `cut` (line 134). -/
def clipName (fi : String) : String := pyReplace fi ".tif" "_clipped.tif"

/-- Coverage fraction computed by `cut` (lines 137-139): clip `fi` to the box,
set every non-background (non-zero) pixel to 1 (`data[data!=0]=1`), and divide
the total by `x*y`. -/
def cutFrac (env : Env) (b : Box) (fi : String) : ℚ :=
  let r := env.clip fi b
  let ind := r.data.map (fun v => if v ≠ 0 then (1 : ℚ) else v)
  ind.sum / ((r.x : ℚ) * (r.y : ℚ))

/-- Embedding of `cut` (lines 133-144): clip `fi` to the box, compute the
coverage fraction, and discard (`None`, deleting the clipped file) when the
fraction is below `thresh`; the threshold defaults to `0.4` exactly as in the
source (`def cut(..., thresh=0.4)`, `procS1StackRTC(..., thresh=0.4)`, and
argparse `--black` default `0.4`). -/
def cut (env : Env) (pt1 pt2 pt3 pt4 : ℚ) (fi : String) (thresh : ℚ := 0.4) :
    Option String × ℚ :=
  let outfile := clipName fi
  let frac := cutFrac env (pt1, pt2, pt3, pt4) fi
  if frac < thresh then (none, frac) else (some outfile, frac)

/-! ## fix_projections (lines 186-217) -/

/-- Reprojected-file name chosen at line 214. -/
def reprojName (f : String) : String := pyReplace f ".tif" "_reproj.tif"

/-- EPSG string construction of lines 210-213: `EPSG:326%02d` when the
reference hemisphere letter is `N`, `EPSG:327%02d` otherwise. -/
def epsgOf (hemi : Char) (zone : Nat) : String :=
  let z := if zone < 10 then "0" ++ toString zone else toString zone
  if hemi = 'N' then "EPSG:326" ++ z else "EPSG:327" ++ z

/-- Zone extracted from a subsequent file's projection (lines 203-206): find
`"UTM zone "` (possibly `-1`!), slice from there, and take the first digit
run; `none` models the `AttributeError` raised by `.groups()` when the slice
contains no digit. -/
def zone2Of (env : Env) (file2 : String) : Option Nat :=
  let p2 := (env.raster file2).proj
  let ptr := strFind p2 "UTM zone "
  (firstDigitRun (pySlice p2 ptr).data).map digitsToNat

/-- One `gdal.Warp` invocation recorded by the model (line 215). -/
structure WarpCall where
  dst : String
  src : String
  srs : String
  xres : ℚ
  yres : ℚ
deriving DecidableEq, Repr

/-- Loop body of `fix_projections` (lines 196-216) over the files after the
first: extract each scene's zone, and when it differs from the reference zone
warp it to the reference EPSG code at the reference pixel size, replacing the
list entry with the `_reproj` name.  Also records the warp calls made. -/
def fixLoop (env : Env) (zone1 : Nat) (hemi : Char) (pixsize : ℚ) :
    List String → Option (List String × List WarpCall)
  | [] => some ([], [])
  | f :: rest =>
    match zone2Of env f with
    | none => none
    | some z2 =>
      match fixLoop env zone1 hemi pixsize rest with
      | none => none
      | some (fl, ws) =>
        if zone1 ≠ z2 then
          some (reprojName f :: fl, ⟨reprojName f, f, epsgOf hemi zone1, pixsize, pixsize⟩ :: ws)
        else some (f :: fl, ws)

/-- Embedding of `fix_projections` (lines 186-217): read the first file's
projection and pixel size; if the projection has no `"UTM zone "` token the
whole list is returned unchanged; otherwise parse the reference zone and
hemisphere with `re.search("(\\d+)(.)", proj[ptr:])` (an `AttributeError`,
i.e. `none`, when that fails) and run the reconciliation loop. -/
def fix_projections (env : Env) (filelist : List String) :
    Option (List String × List WarpCall) :=
  match filelist with
  | [] => none
  | f0 :: rest =>
    let r0 := env.raster f0
    let ptr := strFind r0.proj "UTM zone "
    if ptr = -1 then some (f0 :: rest, [])
    else
      match searchDigitsChar (pySlice r0.proj ptr).data with
      | none => none
      | some (ds, hemi) =>
        match fixLoop env (digitsToNat ds) hemi r0.pixsize rest with
        | none => none
        | some (fl, ws) => some (f0 :: fl, ws)

/-! ## cutStack (lines 219-251) -/

/-- Embedding of `cutStack` (lines 219-251).  The `overlap` branch delegates
to the external `cutGeotiffsByLine`; the `clip` branch keeps each file's
clipped raster exactly when `cut` returns a name; the `shape` branch is the
source's broken branch: its loop body evaluates the unbound name `fi` (line
244) and calls the never-imported `subset_geotiff_shape` (line 245), so any
non-empty reconciled list raises `NameError` (modelled as `none`) while an
empty list skips the loop and returns `[]`. -/
def cutStack (env : Env) (filelist : List String) (overlap : Bool)
    (clip : Option Box) (shape : Option String) (thresh : ℚ) : Option (List String) :=
  if overlap then
    match fix_projections env filelist with
    | none => none
    | some (fl, _) => some (env.cutOverlap fl)
  else
    match clip with
    | some b =>
      match fix_projections env filelist with
      | none => none
      | some (fl, _) =>
        some (fl.filterMap (fun fi => (cut env b.1 b.2.1 b.2.2.1 b.2.2.2 fi thresh).1))
    | none =>
      match shape with
      | some _ =>
        match fix_projections env filelist with
        | none => none
        | some (fl, _) => if fl.length = 0 then some [] else none
      | none => some filelist

/-! ## fix_file_list (lines 263-288) -/

/-- Message logged at line 277 before the fatal exit. -/
def areaMsg : String := "ERROR: None of the input scenes overlap with your area of interest!"

/-- Loop step of `fix_file_list` (lines 271-275): run `cut` with threshold
`0.01` and update the running strict maximum and its file. -/
def ffStep (env : Env) (b : Box) (acc : ℚ × Option String) (fi : String) :
    ℚ × Option String :=
  let frac := (cut env b.1 b.2.1 b.2.2.1 b.2.2.2 fi (1 / 100)).2
  if acc.1 < frac then (frac, some fi) else acc

/-- Embedding of `fix_file_list` (lines 263-288): find the file of best
coverage against the clip box; if the maximum stays `0`, log the
area-of-interest error and `mexit(1)`; otherwise swap the winner (its first
occurrence, per `list.index`) into position 0.  The second component is the
list of messages the function itself logs. -/
def fix_file_list (env : Env) (filelist : List String) (b : Box) :
    PyResult (List String) × List String :=
  let r := filelist.foldl (ffStep env b) ((0 : ℚ), none)
  if r.1 = 0 then (.fatal 1, [areaMsg])
  else
    match r.2 with
    | none => (.exn, [])
    | some mf =>
      match pyIndex filelist mf with
      | none => (.exn, [])
      | some loc =>
        let a0 := filelist.getD 0 ""
        let al := filelist.getD loc ""
        (.ok ((filelist.set 0 al).set loc a0), [])

/-! ## Direction filter (lines 149-162, 290-325, 380-381, 441-442) -/

/-- Embedding of the per-file body of `getDates` (lines 149-162): take the
basename, take hyphen field 4 (`IndexError`, i.e. `none`, when absent), then
the first underscore field when field 4 has at most 26 characters and the
fifth one otherwise (again `none` on `IndexError`). -/
def dateOf (myfile : String) : Option String :=
  let s? := (pySplit (basename myfile) "-")[4]?
  match s? with
  | none => none
  | some s =>
    if s.length ≤ 26 then some ((pySplit s "_").headD "")
    else (pySplit s "_")[4]?

/-- Embedding of `getDates` (lines 149-162); `none` when any filename raises. -/
def getDates (filelist : List String) : Option (List String) :=
  filelist.mapM dateOf

/-- Embedding of `getAscDesc` (lines 290-297): scan the file's lines in
order, returning `"a"` at the first line containing `ascending` and `"d"` at
the first line containing `descending`; falling off the loop returns Python
`None`. -/
def getAscDesc : List String → Option String
  | [] => none
  | l :: rest =>
    if pyIn "ascending" l then some "a"
    else if pyIn "descending" l then some "d"
    else getAscDesc rest

/-- Embedding of `getXmlFiles` (lines 299-309): extract the dates and look up
each date's `*-rtc-gamma` directory and `.iso.xml` file (the composed glob
oracle); an empty glob raises `IndexError` (`exn`), as does `getDates`. -/
def getXmlFiles (env : Env) (filelist : List String) : PyResult (List String) :=
  match getDates filelist with
  | none => .exn
  | some dates =>
    match dates.mapM env.xmlForDate with
    | none => .exn
    | some xmls => .ok xmls

/-- Embedding of `cull_list_by_direction` (lines 311-325): keep exactly the
files whose XML flight direction equals the requested one; files with an
unrecognized direction (`None`) are discarded. -/
def cull_list_by_direction (env : Env) (filelist : List String) (direction : String) :
    PyResult (List String) :=
  match getXmlFiles env filelist with
  | .exn => .exn
  | .fatal c => .fatal c
  | .ok xmls =>
    .ok ((filelist.zip xmls).filterMap
      (fun fx => if getAscDesc (env.xmlLines fx.2) = some direction then some fx.1 else none))

/-- Embedding of lines 380-381: an explicit input list that is `None` or
empty is normalized to `None` (the download/discovery path is taken). -/
def normalizeInfiles (infiles : Option (List String)) : Option (List String) :=
  match infiles with
  | none => none
  | some l => if l.length = 0 then none else some l

/-- Embedding of lines 441-442: the direction cull runs only when a keep
value was supplied AND no explicit input files were given. -/
def directionStage (env : Env) (keep : Option String) (infiles : Option (List String))
    (filelist : List String) : PyResult (List String) :=
  if keep.isSome && infiles.isNone then
    cull_list_by_direction env filelist (keep.getD "")
  else .ok filelist

/-! ## Radiometric kernels (lines 82-110, 128-131, 173-183) -/

/-- Embedding of `create_dB` (lines 82-94): the output name and the written
pixel array `10 * np.log(data)`, applied unconditionally to every pixel (the
commented-out amplitude branch is dead code; there is no runtime check that
the input is power). -/
def create_dB (env : Env) (fi : String) : String × List ℚ :=
  (pyReplace fi ".tif" "_dB.tif", (env.raster fi).data.map (fun v => 10 * env.log v))

/-- Pixel-level semantics of `amp2pwr` (line 106: `pwrdata = data*data`) over
idealized reals. -/
def amp2pwr (data : List ℝ) : List ℝ := data.map (fun v => v * v)

/-- Pixel-level semantics of `pwr2amp` (line 98: `ampdata = np.sqrt(data)`)
over idealized reals (`np.sqrt` cannot be an exact computable function, so
this one definition is noncomputable). -/
noncomputable def pwr2amp (data : List ℝ) : List ℝ := data.map Real.sqrt

/-- Name produced by `apply_speckle_filter` (line 57). -/
def sfName (f : String) : String := pyReplace f ".tif" "_sf.tif"

/-- Name-level embedding of `filterStack` (lines 173-177): one speckle-filter
output per file (the filtered pixels live behind the external `enh_lee`). -/
def filterStack (filelist : List String) : List String := filelist.map sfName

/-- Name produced by `changeRes` (line 129). -/
def resName (res : ℚ) (f : String) : String :=
  pyReplace f ".tif" ("_" ++ toString (pyInt res) ++ "m.tif")

/-- Name-level embedding of `changeResStack` (lines 179-183). -/
def changeResStack (filelist : List String) (res : ℚ) : List String :=
  filelist.map (resName res)

/-- Embedding of lines 447-460: in quick mode cut first and then (only when
survivors remain) filter and resample; otherwise filter and resample the full
rasters and then cut.  The result is the `power_filelist` reaching line 462. -/
def powerStage (env : Env) (quick filterFlag : Bool) (res : Option ℚ)
    (filelist : List String) (overlap : Bool) (clip : Option Box)
    (shape : Option String) (thresh : ℚ) : Option (List String) :=
  if quick then
    match cutStack env filelist overlap clip shape thresh with
    | none => none
    | some l =>
      if l.length ≠ 0 then
        let l1 := if filterFlag then filterStack l else l
        let l2 := match res with | some r => changeResStack l1 r | none => l1
        some l2
      else some l
  else
    let l1 := if filterFlag then filterStack filelist else filelist
    let l2 := match res with | some r => changeResStack l1 r | none => l1
    cutStack env l2 overlap clip shape thresh

/-! ## Driver tail: lines 462-529 -/

/-- Observable driver actions tracked by the model: run-log writes (`plog`),
the run log being closed, `exit(code)`, and `createCleanDir` of the product
directory.  External-tool invocations (`convert`) and file moves carry no
claim content and are elided. -/
inductive Event where
  | logMsg (s : String)
  | logClose
  | exited (code : Nat)
  | mkdir (d : String)
deriving DecidableEq, Repr

/-- Diagnostics logged on the fatal no-survivors path (lines 462-470): the
generic message plus one strategy-specific block per active clip mode. -/
def noSurvivorsMsgs (overlap : Bool) (shape : Option String) (clip : Option Box) :
    List Event :=
  [.logMsg "ERROR: No images survived the clipping process."]
    ++ (if overlap then [.logMsg "ERROR: The image stack does not have overlap."] else [])
    ++ (if shape.isSome then
          [.logMsg "ERROR: The image stack does not overlap with the shape file."] else [])
    ++ (if clip.isSome then
          [.logMsg "ERROR: None of the images have sufficient overlap with the area of interest.",
           .logMsg "ERROR: You might try lowering the --black value or picking an new area of interest."]
        else [])

/-- Events of the fatal no-survivors path (lines 462-471: the diagnostics,
then `mexit(1)`, which closes the log and exits 1). -/
def noSurvivorsEvents (overlap : Bool) (shape : Option String) (clip : Option Box) :
    List Event :=
  noSurvivorsMsgs overlap shape clip ++ [.logClose, .exited 1]

/-- Output name of `byteScale` (line 113). -/
def byteName (fi : String) (lower upper : ℚ) : String :=
  pyReplace fi ".tif" (toString (pyInt lower) ++ "_" ++ toString (pyInt upper) ++ ".tif")

/-- The dB conversion loop of lines 473-477: one `create_dB` call per
surviving power raster, in order. -/
def dB_stage (env : Env) (power_filelist : List String) : List String :=
  power_filelist.map (fun f => (create_dB env f).1)

/-- Lexicographic strict comparison of character lists by code point: the
byte-wise comparison CPython 2 uses on `str` date keys. -/
def charsLt : List Char → List Char → Bool
  | [], [] => false
  | [], _ :: _ => true
  | _ :: _, [] => false
  | a :: s, b :: t => if a < b then true else if b < a then false else charsLt s t

/-- Python 2 `str` `<` on our strings. -/
def pyStrLt (a b : String) : Bool := charsLt a.data b.data

/-- Stable-insert worker for `pySortByDate`: place the new pair before the
first resident pair whose date key is not smaller. -/
def insertByKey (p : String × String) : List (String × String) → List (String × String)
  | [] => [p]
  | q :: t => if pyStrLt q.2 p.2 then q :: insertByKey p t else p :: q :: t

/-- Model of `date_and_file.sort(key=lambda row: row[1])` (line 508): CPython
list.sort is exactly the stable ascending sort by the key, and the stable
ascending sort by a total key is unique, so this insertion sort is
extensionally the source's sort. -/
def pySortByDate : List (String × String) → List (String × String)
  | [] => []
  | p :: t => insertByKey p (pySortByDate t)

/-- Intermediate lists of the successful driver tail. -/
structure TailOut where
  dB_filelist : List String
  byte_filelist : List String
  png_filelist : List String
  date_and_file : List (String × String)
deriving DecidableEq, Repr

/-- Embedding of the driver tail (lines 462-529) from the `power_filelist`
produced by the cutting stage: the fatal no-survivors check; the dB, byte and
PNG conversion loops; date extraction (an unparsable PNG name raises, `exn`);
annotation renaming (`anno_` prefix) exactly when no explicit input files were
given; the stable date sort; and, on success, creation of the product
directory followed by closing the run log.  Frames of the animation are
consumed in `date_and_file` order (lines 516-519). -/
def procAfterCut (env : Env) (overlap : Bool) (clip : Option Box) (shape : Option String)
    (infilesNone : Bool) (outfile : Option String) (lower upper : ℚ)
    (power_filelist : List String) : List Event × PyResult TailOut :=
  if power_filelist.length = 0 then
    (noSurvivorsEvents overlap shape clip, .fatal 1)
  else
    let dBl := dB_stage env power_filelist
    let bytel := dBl.map (fun f => byteName f lower upper)
    let pngl := bytel.map (fun f => pyReplace f ".tif" ".png")
    let msgs : List Event :=
      [.logMsg "Scaling to dB",
       .logMsg ("Byte scaling from " ++ qstr lower ++ " to " ++ qstr upper)]
    match getDates pngl with
    | none => (msgs, .exn)
    | some dates =>
      let date_and_file :=
        (pngl.zip dates).map
          (fun fd => (if infilesNone then "anno_" ++ fd.1 else fd.1, fd.2))
      let sorted := pySortByDate date_and_file
      let prodDir := match outfile with
        | some o => "../PRODUCT_" ++ o
        | none => "PRODUCT"
      (msgs ++ [.mkdir prodDir, .logClose], .ok ⟨dBl, bytel, pngl, sorted⟩)

/-! ## Shared witness environments -/

/-- Raster with no UTM zone token in its projection string. -/
def rNoZone : Raster := ⟨2, 2, 30, "LOCAL_CS[Unknown]", [1, 1, 1, 0]⟩

/-- Raster tagged UTM zone 5 north. -/
def r5N : Raster := ⟨2, 2, 30, "PROJCS[WGS 84 / UTM zone 5N]", [1, 1, 1, 0]⟩

/-- Raster tagged UTM zone 6 north. -/
def r6N : Raster := ⟨2, 2, 30, "PROJCS[WGS 84 / UTM zone 6N]", [1, 1, 0, 0]⟩

/-- Raster whose pixels are all background (zero). -/
def rZero : Raster := ⟨2, 2, 30, "LOCAL_CS[Unknown]", [0, 0, 0, 0]⟩

/-- Base concrete environment for witnesses. -/
def envW : Env :=
  { raster := fun _ => rNoZone
    clip := fun _ _ => rNoZone
    cutOverlap := fun l => l
    xmlForDate := fun _ => none
    xmlLines := fun _ => []
    log := fun q => q }

/-- Environment whose clip always yields an all-background raster. -/
def envZero : Env := { envW with clip := fun _ _ => rZero }

/-- Environment where only `b.tif` has clip coverage. -/
def envPick : Env := { envW with clip := fun f _ => if f = "b.tif" then rNoZone else rZero }

/-- Environment realizing spec Scenario C: three scenes, the reference and
`b.tif` in zone 5N, `c.tif` in zone 6N. -/
def envMix : Env := { envW with raster := fun f => if f = "c.tif" then r6N else r5N }

/-- Environment for C4: the first scene is zone-tagged 5N, the second scene's
projection has no `"UTM zone "` token and does not end in a digit. -/
def envC4 : Env := { envW with raster := fun f => if f = "a.tif" then r5N else rNoZone }

/-- Environment for the C10 witness: two discovered scenes whose ISO XML
sidecars mark one ascending and one descending. -/
def envDir : Env :=
  { envW with
    xmlForDate := fun d => if d = "20180101" then some "x1.iso.xml"
      else if d = "20180102" then some "x2.iso.xml" else none
    xmlLines := fun x => if x = "x1.iso.xml" then ["<dir>ascending</dir>"]
      else ["<dir>descending</dir>"] }

/-- Witness input for C7/C8: a single scene named so that the date `20180101`
is extractable from the derived PNG name. -/
def wFile : String := "a-b-c-d-20180101_x.tif"

/-- Second witness file, dated one day earlier, hyphen field 3 differing. -/
def wFile2 : String := "a-b-c-a-20171231_x.tif"

/-! ## Basic lemmas about `cut` -/

/-- Characterization of `cut`: the kept/discarded decision is exactly the
threshold comparison on the coverage fraction. -/
theorem cut_eq (env : Env) (p1 p2 p3 p4 : ℚ) (fi : String) (t : ℚ) :
    cut env p1 p2 p3 p4 fi t =
      (if t ≤ cutFrac env (p1, p2, p3, p4) fi then some (clipName fi) else none,
       cutFrac env (p1, p2, p3, p4) fi) := by
  by_cases h : cutFrac env (p1, p2, p3, p4) fi < t
  · simp [cut, h, not_le.mpr h]
  · simp [cut, h, not_lt.mp h]

/-- C1: For every bounding-box clip run with threshold `t`, the Stack Cutter
keeps a Scene (its path replaced by the clipped raster name) if and only if
that Scene's coverage fraction against the box is `≥ t`; every Scene with
fraction `< t` is discarded, and the surviving list is the order-preserving
subsequence (a `filterMap`) of the reconciled input list.  The threshold
defaults to `0.4` when the caller supplies none. -/
theorem bbox_threshold_filter (env : Env) (filelist fl : List String)
    (ws : List WarpCall) (p1 p2 p3 p4 : ℚ) (shape : Option String) (t : ℚ)
    (hfix : fix_projections env filelist = some (fl, ws)) :
    cutStack env filelist false (some (p1, p2, p3, p4)) shape t
      = some (fl.filterMap (fun fi =>
          if t ≤ cutFrac env (p1, p2, p3, p4) fi then some (clipName fi) else none))
    ∧ (∀ fi, ((cut env p1 p2 p3 p4 fi t).1 = some (clipName fi) ↔
            t ≤ cutFrac env (p1, p2, p3, p4) fi)
        ∧ ((cut env p1 p2 p3 p4 fi t).1 = none ↔ cutFrac env (p1, p2, p3, p4) fi < t)
        ∧ (cut env p1 p2 p3 p4 fi t).2 = cutFrac env (p1, p2, p3, p4) fi)
    ∧ (∀ fi, cut env p1 p2 p3 p4 fi = cut env p1 p2 p3 p4 fi (2 / 5)) := by
  refine ⟨?_, ?_, ?_⟩
  · unfold cutStack
    rw [hfix]
    simp only [Bool.false_eq_true, if_false]
    congr 1
    apply List.filterMap_congr
    intro fi _
    rw [cut_eq]
  · intro fi
    rw [cut_eq]
    refine ⟨?_, ?_, rfl⟩
    · constructor
      · intro h
        by_contra hc
        simp [hc] at h
      · intro h
        simp [h]
    · constructor
      · intro h
        by_contra hc
        rw [not_lt] at hc
        simp [hc] at h
      · intro h
        simp [not_le.mpr h]
  · intro fi
    have : (0.4 : ℚ) = 2 / 5 := by norm_num
    rw [this]

/-- Witness for C1 at a concrete environment: the scene covers 3/4 ≥ 2/5 of
the box, so it survives with the `_clipped` name. -/
theorem bbox_threshold_filter_wit :
    fix_projections envW ["a.tif"] = some (["a.tif"], [])
    ∧ cutStack envW ["a.tif"] false (some (0, 0, 1, 1)) none (2 / 5)
      = some (List.filterMap (fun fi =>
          if (2 / 5 : ℚ) ≤ cutFrac envW (0, 0, 1, 1) fi then some (clipName fi) else none)
          ["a.tif"]) :=
  ⟨by decide, (bbox_threshold_filter envW ["a.tif"] ["a.tif"] [] 0 0 1 1 none (2 / 5)
    (by decide)).1⟩

/-! ## Lemmas about the `fix_file_list` maximum scan -/

/-- The loop step, rephrased through `cut_eq`. -/
theorem ffStep_eq (env : Env) (b : Box) (acc : ℚ × Option String) (fi : String) :
    ffStep env b acc fi =
      if acc.1 < cutFrac env b fi then (cutFrac env b fi, some fi) else acc := by
  simp [ffStep, cut_eq]

/-- The running maximum never decreases and dominates every scanned fraction. -/
theorem ffFold_ge (env : Env) (b : Box) :
    ∀ (l : List String) (acc : ℚ × Option String),
      acc.1 ≤ (l.foldl (ffStep env b) acc).1
      ∧ ∀ fi ∈ l, cutFrac env b fi ≤ (l.foldl (ffStep env b) acc).1 := by
  intro l
  induction l with
  | nil => intro acc; exact ⟨le_refl _, by simp⟩
  | cons f t ih =>
    intro acc
    have hstep : acc.1 ≤ (ffStep env b acc f).1 ∧ cutFrac env b f ≤ (ffStep env b acc f).1 := by
      rw [ffStep_eq]
      by_cases h : acc.1 < cutFrac env b f
      · simp [h, le_of_lt h]
      · simp [h, not_lt.mp h]
    have := ih (ffStep env b acc f)
    refine ⟨le_trans hstep.1 this.1, ?_⟩
    intro fi hfi
    rcases List.mem_cons.mp hfi with hfi | hfi
    · subst hfi; exact le_trans hstep.2 this.1
    · exact this.2 fi hfi

/-- The scan either returns its accumulator untouched or returns the fraction
and name of some scanned file. -/
theorem ffFold_char (env : Env) (b : Box) :
    ∀ (l : List String) (acc : ℚ × Option String),
      l.foldl (ffStep env b) acc = acc
      ∨ ∃ fi ∈ l, l.foldl (ffStep env b) acc = (cutFrac env b fi, some fi) := by
  intro l
  induction l with
  | nil => intro acc; exact Or.inl rfl
  | cons f t ih =>
    intro acc
    have hfold : (f :: t).foldl (ffStep env b) acc = t.foldl (ffStep env b) (ffStep env b acc f) := rfl
    rcases ih (ffStep env b acc f) with h | ⟨fi, hfi, h⟩
    · rw [hfold, h, ffStep_eq]
      by_cases hc : acc.1 < cutFrac env b f
      · exact Or.inr ⟨f, List.mem_cons_self f t, by simp [hc]⟩
      · exact Or.inl (by simp [hc])
    · exact Or.inr ⟨fi, List.mem_cons_of_mem f hfi, by rw [hfold, h]⟩

/-- Python `list.index` finds a member: its first occurrence, in range. -/
theorem pyIndex_mem : ∀ (l : List String) (x : String), x ∈ l →
    ∃ j, pyIndex l x = some j ∧ j < l.length ∧ l.getD j "" = x := by
  intro l
  induction l with
  | nil => intro x hx; exact absurd hx (List.not_mem_nil x)
  | cons a t ih =>
    intro x hx
    by_cases ha : a = x
    · exact ⟨0, by simp [pyIndex, ha], Nat.succ_pos _, by simp [ha]⟩
    · have hxt : x ∈ t := by
        rcases List.mem_cons.mp hx with h | h
        · exact absurd h.symm ha
        · exact h
      rcases ih x hxt with ⟨j, hj1, hj2, hj3⟩
      exact ⟨j + 1, by simp [pyIndex, ha, hj1], Nat.succ_lt_succ hj2, by simpa using hj3⟩

/-- C2: Reference Election (`fix_file_list`).  If every Scene's coverage
fraction against the requested box is 0, the run terminates fatally with
non-zero status after logging a message mentioning the area of interest;
otherwise a Scene of maximal coverage fraction is swapped into position 0
(the former position-0 Scene takes its place, all other positions
unchanged). -/
theorem reference_election_spec (env : Env) (fl : List String) (p1 p2 p3 p4 : ℚ) :
    ((∀ fi ∈ fl, cutFrac env (p1, p2, p3, p4) fi = 0) →
      fix_file_list env fl (p1, p2, p3, p4) = (.fatal 1, [areaMsg])
      ∧ strFind areaMsg "area of interest" ≠ -1)
    ∧ ((∃ fi ∈ fl, 0 < cutFrac env (p1, p2, p3, p4) fi) →
      ∃ j, j < fl.length
        ∧ (fix_file_list env fl (p1, p2, p3, p4)).1
            = .ok ((fl.set 0 (fl.getD j "")).set j (fl.getD 0 ""))
        ∧ ∀ fi ∈ fl, cutFrac env (p1, p2, p3, p4) fi
            ≤ cutFrac env (p1, p2, p3, p4) (fl.getD j "")) := by
  constructor
  · intro hall
    have hr : (fl.foldl (ffStep env (p1, p2, p3, p4)) ((0 : ℚ), none)).1 = 0 := by
      rcases ffFold_char env (p1, p2, p3, p4) fl ((0 : ℚ), none) with h | ⟨fi, hfi, h⟩
      · rw [h]
      · rw [h]; exact hall fi hfi
    refine ⟨?_, by decide⟩
    unfold fix_file_list
    rw [if_pos hr]
  · intro ⟨fi0, hfi0, hpos⟩
    have hge := ffFold_ge env (p1, p2, p3, p4) fl ((0 : ℚ), none)
    have hrpos : 0 < (fl.foldl (ffStep env (p1, p2, p3, p4)) ((0 : ℚ), none)).1 :=
      lt_of_lt_of_le hpos (hge.2 fi0 hfi0)
    rcases ffFold_char env (p1, p2, p3, p4) fl ((0 : ℚ), none) with h | ⟨mf, hmf, h⟩
    · rw [h] at hrpos; exact absurd hrpos (lt_irrefl 0)
    · rcases pyIndex_mem fl mf hmf with ⟨j, hj1, hj2, hj3⟩
      refine ⟨j, hj2, ?_, ?_⟩
      · have hne : ¬(cutFrac env (p1, p2, p3, p4) mf, some mf).1 = 0 := by
          rw [h] at hrpos
          exact ne_of_gt hrpos
        unfold fix_file_list
        rw [h, if_neg hne]
        simp only [hj1, hj3]
      · intro fi hfi
        have := hge.2 fi hfi
        rw [h] at this
        rw [hj3]
        exact this

/-- Witness for C2: with zero coverage everywhere the election is fatal with
the area-of-interest message; with coverage only on `b.tif`, that scene is
swapped into position 0. -/
theorem reference_election_spec_wit :
    ((∀ fi ∈ ["a.tif"], cutFrac envZero (0, 0, 1, 1) fi = 0)
      ∧ fix_file_list envZero ["a.tif"] (0, 0, 1, 1) = (.fatal 1, [areaMsg])
      ∧ strFind areaMsg "area of interest" ≠ -1)
    ∧ ((∃ fi ∈ ["a.tif", "b.tif"], 0 < cutFrac envPick (0, 0, 1, 1) fi)
      ∧ ∃ j, j < (["a.tif", "b.tif"] : List String).length
        ∧ (fix_file_list envPick ["a.tif", "b.tif"] (0, 0, 1, 1)).1
            = .ok (List.set (List.set ["a.tif", "b.tif"] 0
                (["a.tif", "b.tif"].getD j "")) j (["a.tif", "b.tif"].getD 0 ""))
        ∧ ∀ fi ∈ ["a.tif", "b.tif"], cutFrac envPick (0, 0, 1, 1) fi
            ≤ cutFrac envPick (0, 0, 1, 1) (["a.tif", "b.tif"].getD j "")) := by
  have h1 : ∀ fi ∈ ["a.tif"], cutFrac envZero (0, 0, 1, 1) fi = 0 := by
    intro fi hfi
    simp only [List.mem_singleton] at hfi
    subst hfi
    norm_num [cutFrac, envZero, envW, rZero]
  have h2 : ∃ fi ∈ ["a.tif", "b.tif"], 0 < cutFrac envPick (0, 0, 1, 1) fi := by
    refine ⟨"b.tif", by simp, ?_⟩
    norm_num [cutFrac, envPick, envW, rNoZone]
  exact ⟨⟨h1, (reference_election_spec envZero ["a.tif"] 0 0 1 1).1 h1⟩,
    ⟨h2, (reference_election_spec envPick ["a.tif", "b.tif"] 0 0 1 1).2 h2⟩⟩

/-! ## Projection reconciliation lemmas -/

/-- The reconciliation loop, when every scene's zone extracts: differing zones
are renamed to `_reproj` and warped to the reference EPSG code at the
reference pixel size; matching zones pass through untouched. -/
theorem fixLoop_spec (env : Env) (zone1 : Nat) (hemi : Char) (pixsize : ℚ)
    (z : String → Nat) :
    ∀ (l : List String), (∀ f ∈ l, zone2Of env f = some (z f)) →
      fixLoop env zone1 hemi pixsize l =
        some (l.map (fun f => if zone1 ≠ z f then reprojName f else f),
          l.filterMap (fun f =>
            if zone1 ≠ z f then
              some ⟨reprojName f, f, epsgOf hemi zone1, pixsize, pixsize⟩
            else none)) := by
  intro l
  induction l with
  | nil => intro _; rfl
  | cons f t ih =>
    intro hz
    have hf : zone2Of env f = some (z f) := hz f (List.mem_cons_self f t)
    have ht := ih (fun g hg => hz g (List.mem_cons_of_mem f hg))
    unfold fixLoop
    rw [hf, ht]
    by_cases hzz : zone1 ≠ z f
    · simp [hzz]
    · rw [not_ne_iff] at hzz
      simp [hzz]

/-- C3: When the first Scene's projection contains a UTM zone, every
subsequent Scene whose extracted zone differs from the reference zone is
warped to the reference zone's EPSG code (`EPSG:326` + two-digit zone when
the captured hemisphere letter is `N`, `EPSG:327` + two-digit zone
otherwise, i.e. for the southern hemisphere) at the reference Scene's pixel
size, its path being replaced by the `_reproj` raster; every subsequent
Scene whose zone equals the reference zone is left untouched. -/
theorem projection_reconcile_spec (env : Env) (f0 : String) (rest : List String)
    (ds : List Char) (hemi : Char) (z : String → Nat)
    (hfind : strFind (env.raster f0).proj "UTM zone " ≠ -1)
    (hsearch : searchDigitsChar
      (pySlice (env.raster f0).proj (strFind (env.raster f0).proj "UTM zone ")).data
      = some (ds, hemi))
    (hz : ∀ f ∈ rest, zone2Of env f = some (z f)) :
    fix_projections env (f0 :: rest) =
      some (f0 :: rest.map (fun f => if digitsToNat ds ≠ z f then reprojName f else f),
        rest.filterMap (fun f =>
          if digitsToNat ds ≠ z f then
            some ⟨reprojName f, f, epsgOf hemi (digitsToNat ds),
              (env.raster f0).pixsize, (env.raster f0).pixsize⟩
          else none))
    ∧ epsgOf 'N' (digitsToNat ds)
        = "EPSG:326" ++ (if digitsToNat ds < 10 then "0" ++ toString (digitsToNat ds)
            else toString (digitsToNat ds))
    ∧ epsgOf 'S' (digitsToNat ds)
        = "EPSG:327" ++ (if digitsToNat ds < 10 then "0" ++ toString (digitsToNat ds)
            else toString (digitsToNat ds)) := by
  refine ⟨?_, by simp [epsgOf], by simp [epsgOf]⟩
  simp only [fix_projections]
  rw [if_neg hfind, hsearch]
  dsimp only
  rw [fixLoop_spec env (digitsToNat ds) hemi (env.raster f0).pixsize z rest hz]

/-- Witness for C3 (spec Scenario C): exactly the zone-6 scene is reprojected,
to `EPSG:32605` at the reference pixel size 30. -/
theorem projection_reconcile_spec_wit :
    strFind (envMix.raster "a.tif").proj "UTM zone " ≠ -1
    ∧ searchDigitsChar
        (pySlice (envMix.raster "a.tif").proj
          (strFind (envMix.raster "a.tif").proj "UTM zone ")).data = some (['5'], 'N')
    ∧ (∀ f ∈ ["b.tif", "c.tif"], zone2Of envMix f
        = some (if f = "c.tif" then 6 else 5))
    ∧ fix_projections envMix ("a.tif" :: ["b.tif", "c.tif"]) =
        some ("a.tif" :: ["b.tif", "c.tif"].map
            (fun f => if digitsToNat ['5'] ≠ (if f = "c.tif" then 6 else 5)
              then reprojName f else f),
          ["b.tif", "c.tif"].filterMap (fun f =>
            if digitsToNat ['5'] ≠ (if f = "c.tif" then 6 else 5) then
              some ⟨reprojName f, f, epsgOf 'N' (digitsToNat ['5']),
                (envMix.raster "a.tif").pixsize, (envMix.raster "a.tif").pixsize⟩
            else none)) :=
  ⟨by decide, by decide, by decide,
    (projection_reconcile_spec envMix "a.tif" ["b.tif", "c.tif"] ['5'] 'N'
      (fun f => if f = "c.tif" then 6 else 5) (by decide) (by decide) (by decide)).1⟩

/-! ## C4: a zone-less scene after a zone-tagged reference -/

/-- C4 (code bug): a Scene whose projection has no recognizable UTM zone
token is NOT passed through unchanged when the first Scene is zone-tagged:
`p2.find("UTM zone ")` returns `-1`, the slice `p2[-1:]` is the last
character of the projection string, and `re.search("(\\d+)", ...)` matches
nothing, so `.groups()` raises `AttributeError` and the whole reconciliation
crashes (modelled as `none`) instead of leaving the Scene untouched. -/
theorem zoneless_scene_crash :
    fix_projections envC4 ["a.tif", "b.tif"] = none
    ∧ strFind (envC4.raster "b.tif").proj "UTM zone " = -1
    ∧ zone2Of envC4 "b.tif" = none := by
  refine ⟨by decide, by decide, by decide⟩

/-! ## C5: the shapefile branch -/

/-- C5 (code bug): for any environment, once projections are reconciled the
shapefile branch of `cutStack` crashes on every non-empty stack — its loop
body evaluates the unbound name `fi` (line 244) and calls the never-imported
`subset_geotiff_shape` (line 245) — so it never performs the claimed
keep-if-raster-exists filtering.  Stated at a concrete input, plus the
general non-empty case. -/
theorem shape_branch_crash :
    cutStack envW ["a.tif"] false none (some "area.shp") (2 / 5) = none
    ∧ (∀ (env : Env) (filelist fl : List String) (ws : List WarpCall) (s : String) (t : ℚ),
        fix_projections env filelist = some (fl, ws) → fl ≠ [] →
        cutStack env filelist false none (some s) t = none) := by
  constructor
  · decide
  · intro env filelist fl ws s t hfix hne
    unfold cutStack
    rw [hfix]
    simp [List.length_eq_zero, hne]

/-! ## C6: fatal handling of an empty survivor list -/

/-- Every event before the close/exit suffix on the fatal path is a log
write: nothing else (in particular no directory creation) happens. -/
theorem noSurvivorsMsgs_logOnly (ov : Bool) (sh : Option String) (cl : Option Box) :
    ∀ e ∈ noSurvivorsMsgs ov sh cl, ∃ s, e = .logMsg s := by
  intro e he
  unfold noSurvivorsMsgs at he
  split_ifs at he <;> simp_all <;> aesop

/-- C6: whenever the cutting stage returns an empty survivor list, the
pipeline terminates with exit status 1 after logging the generic diagnostic
plus a strategy-specific one (no overlap for Overlap mode, no shapefile
intersection for ShapeFile mode, insufficient per-scene coverage with the
lower-the-threshold / new-area suggestion for BoundingBox mode); the run log
is closed immediately before the exit, and no product directory is created
on this fatal path. -/
theorem empty_survivors_fatal (env : Env) (quick filterFlag : Bool) (res : Option ℚ)
    (filelist : List String) (overlap : Bool) (clip : Option Box)
    (shape : Option String) (t : ℚ) (infN : Bool) (outfile : Option String)
    (lo hi : ℚ) (pfl : List String)
    (h : powerStage env quick filterFlag res filelist overlap clip shape t = some pfl)
    (hpfl : pfl = []) :
    procAfterCut env overlap clip shape infN outfile lo hi pfl
      = (noSurvivorsMsgs overlap shape clip ++ [.logClose, .exited 1], .fatal 1)
    ∧ (∀ e ∈ noSurvivorsMsgs overlap shape clip, ∃ s, e = .logMsg s)
    ∧ (overlap = true →
        Event.logMsg "ERROR: The image stack does not have overlap."
          ∈ noSurvivorsMsgs overlap shape clip)
    ∧ (shape.isSome →
        Event.logMsg "ERROR: The image stack does not overlap with the shape file."
          ∈ noSurvivorsMsgs overlap shape clip)
    ∧ (clip.isSome →
        Event.logMsg "ERROR: None of the images have sufficient overlap with the area of interest."
          ∈ noSurvivorsMsgs overlap shape clip
        ∧ Event.logMsg "ERROR: You might try lowering the --black value or picking an new area of interest."
          ∈ noSurvivorsMsgs overlap shape clip)
    ∧ (∀ d, Event.mkdir d ∉ (procAfterCut env overlap clip shape infN outfile lo hi pfl).1) := by
  subst hpfl
  have hmain : procAfterCut env overlap clip shape infN outfile lo hi []
      = (noSurvivorsMsgs overlap shape clip ++ [.logClose, .exited 1], .fatal 1) := rfl
  refine ⟨hmain, noSurvivorsMsgs_logOnly overlap shape clip, ?_, ?_, ?_, ?_⟩
  · intro hov
    subst hov
    unfold noSurvivorsMsgs
    simp
  · intro hsh
    unfold noSurvivorsMsgs
    simp [hsh]
  · intro hcl
    unfold noSurvivorsMsgs
    constructor <;> simp [hcl]
  · intro d
    rw [hmain]
    intro hd
    simp only [List.mem_append] at hd
    rcases hd with hd | hd
    · rcases noSurvivorsMsgs_logOnly overlap shape clip _ hd with ⟨s, hs⟩
      exact Event.noConfusion hs
    · simp at hd

/-- Witness for C6: one scene, bounding-box mode, zero coverage: the stage
yields no survivors and the fatal trace is produced. -/
theorem empty_survivors_fatal_wit :
    powerStage envZero false false none ["a.tif"] false (some (0, 0, 1, 1)) none (2 / 5)
      = some []
    ∧ procAfterCut envZero false (some (0, 0, 1, 1)) none true none (-40) 0 []
      = (noSurvivorsMsgs false none (some (0, 0, 1, 1)) ++ [.logClose, .exited 1], .fatal 1) := by
  have h : powerStage envZero false false none ["a.tif"] false (some (0, 0, 1, 1)) none (2 / 5)
      = some [] := by
    simp only [powerStage, cutStack, fix_projections, cut, cutFrac, envZero, envW, rZero]
    norm_num
    decide
  exact ⟨h, (empty_survivors_fatal envZero false false none ["a.tif"] false
    (some (0, 0, 1, 1)) none (2 / 5) true none (-40) 0 [] h rfl).1⟩

/-! ## C7: the decibel conversion stage -/

/-- C7: decibel conversion is applied exactly once (one `create_dB` call, in
order) to every raster in the `power_filelist` that survives the cutting
stage, after cutting; each call writes `10 * log(v)` for every pixel `v` of
its input raster, unconditionally — there is no runtime check that the
input is power rather than amplitude. -/
theorem dB_once_after_cut (env : Env) (quick filterFlag : Bool) (res : Option ℚ)
    (filelist : List String) (overlap : Bool) (clip : Option Box)
    (shape : Option String) (t : ℚ) (infN : Bool) (outfile : Option String)
    (lo hi : ℚ) (pfl : List String) (out : TailOut)
    (h : powerStage env quick filterFlag res filelist overlap clip shape t = some pfl)
    (hout : (procAfterCut env overlap clip shape infN outfile lo hi pfl).2 = .ok out) :
    out.dB_filelist = pfl.map (fun f => (create_dB env f).1)
    ∧ (∀ f, (create_dB env f).2 = (env.raster f).data.map (fun v => 10 * env.log v))
    ∧ (∀ f, (create_dB env f).1 = pyReplace f ".tif" "_dB.tif") := by
  refine ⟨?_, fun f => rfl, fun f => rfl⟩
  unfold procAfterCut at hout
  split at hout
  · exact absurd hout (by simp)
  · dsimp only at hout
    split at hout
    · exact absurd hout (by simp)
    · simp only [PyResult.ok.injEq] at hout
      rw [← hout]
      rfl

/-- Witness for C7: with one survivor, the dB list is exactly one `_dB` name
per survivor. -/
theorem dB_once_after_cut_wit :
    powerStage envW false false none [wFile] false none none (2 / 5) = some [wFile]
    ∧ (procAfterCut envW false none none true none (-40) 0 [wFile]).2
      = .ok ⟨["a-b-c-d-20180101_x_dB.tif"], ["a-b-c-d-20180101_x_dB-40_0.tif"],
          ["a-b-c-d-20180101_x_dB-40_0.png"],
          [("anno_a-b-c-d-20180101_x_dB-40_0.png", "20180101")]⟩
    ∧ TailOut.dB_filelist ⟨["a-b-c-d-20180101_x_dB.tif"], ["a-b-c-d-20180101_x_dB-40_0.tif"],
          ["a-b-c-d-20180101_x_dB-40_0.png"],
          [("anno_a-b-c-d-20180101_x_dB-40_0.png", "20180101")]⟩
      = [wFile].map (fun f => (create_dB envW f).1) := by
  have h : powerStage envW false false none [wFile] false none none (2 / 5)
      = some [wFile] := by decide
  have hout : (procAfterCut envW false none none true none (-40) 0 [wFile]).2
      = .ok ⟨["a-b-c-d-20180101_x_dB.tif"], ["a-b-c-d-20180101_x_dB-40_0.tif"],
          ["a-b-c-d-20180101_x_dB-40_0.png"],
          [("anno_a-b-c-d-20180101_x_dB-40_0.png", "20180101")]⟩ := by decide
  exact ⟨h, hout,
    (dB_once_after_cut envW false false none [wFile] false none none (2 / 5) true none
      (-40) 0 [wFile] _ h hout).1⟩

/-! ## C8: temporal sort lemmas -/

/-- The structural comparison agrees with the lexicographic order. -/
theorem charsLt_iff : ∀ s t : List Char, charsLt s t = true ↔ List.Lex (· < ·) s t := by
  intro s
  induction s with
  | nil =>
    intro t
    cases t with
    | nil =>
      refine iff_of_false (by simp [charsLt]) ?_
      intro h
      cases h
    | cons b bs => exact iff_of_true rfl List.Lex.nil
  | cons a as ih =>
    intro t
    cases t with
    | nil =>
      refine iff_of_false (by simp [charsLt]) (List.Lex.not_nil_right _ _)
    | cons b bs =>
      by_cases hab : a < b
      · refine iff_of_true (by simp [charsLt, hab]) (List.Lex.rel hab)
      · by_cases hba : b < a
        · refine iff_of_false (by simp [charsLt, hab, hba]) ?_
          intro h
          cases h with
          | rel h' => exact absurd h' hab
          | cons h' => exact absurd hba (lt_irrefl _)
        · have hab' : a = b := le_antisymm (not_lt.mp hba) (not_lt.mp hab)
          subst hab'
          rw [show charsLt (a :: as) (a :: bs) = charsLt as bs by
            simp [charsLt, lt_irrefl]]
          rw [List.Lex.cons_iff]
          exact ih bs

/-- The Python string comparison agrees with Mathlib's order on `String`. -/
theorem pyStrLt_iff (a b : String) : pyStrLt a b = true ↔ a < b := by
  rw [String.lt_iff_toList_lt]
  exact charsLt_iff a.data b.data

/-- Negated form of the comparison bridge. -/
theorem pyStrLt_false_iff (a b : String) : ¬pyStrLt a b = true ↔ b ≤ a := by
  rw [pyStrLt_iff, not_lt]

/-- Inserting only permutes. -/
theorem insertByKey_perm (p : String × String) :
    ∀ l : List (String × String), (insertByKey p l).Perm (p :: l) := by
  intro l
  induction l with
  | nil => exact List.Perm.refl _
  | cons q t ih =>
    unfold insertByKey
    by_cases h : pyStrLt q.2 p.2 = true
    · rw [if_pos h]
      exact ((ih.cons q).trans (List.Perm.swap p q t)).symm.symm
    · rw [if_neg h]

/-- Inserting preserves sortedness by the date key. -/
theorem insertByKey_sorted (p : String × String) :
    ∀ l : List (String × String),
      l.Pairwise (fun a b => a.2 ≤ b.2) → (insertByKey p l).Pairwise (fun a b => a.2 ≤ b.2) := by
  intro l
  induction l with
  | nil => intro _; exact List.pairwise_singleton _ _
  | cons q t ih =>
    intro hs
    rcases List.pairwise_cons.mp hs with ⟨hq, ht⟩
    unfold insertByKey
    by_cases h : pyStrLt q.2 p.2 = true
    · rw [if_pos h]
      refine List.pairwise_cons.mpr ⟨?_, ih ht⟩
      intro y hy
      have hy' : y ∈ p :: t := (insertByKey_perm p t).mem_iff.mp hy
      rcases List.mem_cons.mp hy' with rfl | hy'
      · exact le_of_lt ((pyStrLt_iff _ _).mp h)
      · exact hq y hy'
    · rw [if_neg h]
      have hle : p.2 ≤ q.2 := (pyStrLt_false_iff _ _).mp h
      refine List.pairwise_cons.mpr ⟨?_, hs⟩
      intro y hy
      rcases List.mem_cons.mp hy with rfl | hy
      · exact hle
      · exact le_trans hle (hq y hy)

/-- Inserting is stable in the filter-by-key sense: the new pair lands in
front of nothing with its own key (everything it passes has a strictly
smaller key). -/
theorem insertByKey_filter (p : String × String) (d : String) :
    ∀ l : List (String × String),
      (insertByKey p l).filter (fun q => q.2 == d)
        = (p :: l).filter (fun q => q.2 == d) := by
  intro l
  induction l with
  | nil => rfl
  | cons q t ih =>
    unfold insertByKey
    by_cases h : pyStrLt q.2 p.2 = true
    · rw [if_pos h]
      have hlt : q.2 < p.2 := (pyStrLt_iff _ _).mp h
      by_cases hp : p.2 = d
      · have hq : ¬(q.2 = d) := fun hqd => absurd (hqd.trans hp.symm) (ne_of_lt hlt)
        simp [List.filter_cons, hp, hq, ih]
      · simp [List.filter_cons, hp, ih]
    · rw [if_neg h]

/-- The temporal sort only permutes the date/file pairs. -/
theorem pySortByDate_perm : ∀ l : List (String × String), (pySortByDate l).Perm l := by
  intro l
  induction l with
  | nil => exact List.Perm.refl _
  | cons p t ih => exact (insertByKey_perm p (pySortByDate t)).trans (ih.cons p)

/-- The temporal sort produces a list non-decreasing in the date key. -/
theorem pySortByDate_sorted :
    ∀ l : List (String × String), (pySortByDate l).Pairwise (fun a b => a.2 ≤ b.2) := by
  intro l
  induction l with
  | nil => exact List.Pairwise.nil
  | cons p t ih => exact insertByKey_sorted p (pySortByDate t) ih

/-- The temporal sort is stable: for each date, the pairs carrying that date
appear in their original relative order. -/
theorem pySortByDate_stable (d : String) :
    ∀ l : List (String × String),
      (pySortByDate l).filter (fun q => q.2 == d) = l.filter (fun q => q.2 == d) := by
  intro l
  induction l with
  | nil => rfl
  | cons p t ih =>
    calc (pySortByDate (p :: t)).filter (fun q => q.2 == d)
        = (p :: pySortByDate t).filter (fun q => q.2 == d) :=
          insertByKey_filter p d (pySortByDate t)
      _ = (p :: t).filter (fun q => q.2 == d) := by
          simp only [List.filter_cons, ih]

/-- C8: the Temporal Compositor's output pair list is non-decreasing by the
acquisition date extracted from each (annotated) frame name, is a permutation
of the pre-sort pair list built from the PNG frames and their extracted
dates, and the sort is stable: pairs with equal extracted dates keep their
pre-sort relative order.  This holds for every input `power_filelist`, hence
for every permutation of the same surviving Scene set. -/
theorem temporal_sort_spec (env : Env) (overlap : Bool) (clip : Option Box)
    (shape : Option String) (infN : Bool) (outfile : Option String)
    (lo hi : ℚ) (pfl : List String) (out : TailOut)
    (hout : (procAfterCut env overlap clip shape infN outfile lo hi pfl).2 = .ok out) :
    out.date_and_file.Pairwise (fun a b => a.2 ≤ b.2)
    ∧ ∃ dates, getDates out.png_filelist = some dates
      ∧ out.date_and_file.Perm
          ((out.png_filelist.zip dates).map
            (fun fd => (if infN then "anno_" ++ fd.1 else fd.1, fd.2)))
      ∧ ∀ d, out.date_and_file.filter (fun q => q.2 == d)
          = ((out.png_filelist.zip dates).map
              (fun fd => (if infN then "anno_" ++ fd.1 else fd.1, fd.2))).filter
              (fun q => q.2 == d) := by
  unfold procAfterCut at hout
  split at hout
  · exact absurd hout (by simp)
  · dsimp only at hout
    split at hout
    · exact absurd hout (by simp)
    · rename_i dates hdates
      simp only [PyResult.ok.injEq] at hout
      rw [← hout]
      refine ⟨pySortByDate_sorted _, dates, hdates, pySortByDate_perm _,
        fun d => pySortByDate_stable d _⟩

/-- Witness for C8: two scenes given in reverse date order come out sorted
ascending by extracted date. -/
theorem temporal_sort_spec_wit :
    (procAfterCut envW false none none false none (-40) 0 [wFile, wFile2]).2
      = .ok ⟨["a-b-c-d-20180101_x_dB.tif", "a-b-c-a-20171231_x_dB.tif"],
          ["a-b-c-d-20180101_x_dB-40_0.tif", "a-b-c-a-20171231_x_dB-40_0.tif"],
          ["a-b-c-d-20180101_x_dB-40_0.png", "a-b-c-a-20171231_x_dB-40_0.png"],
          [("a-b-c-a-20171231_x_dB-40_0.png", "20171231"),
           ("a-b-c-d-20180101_x_dB-40_0.png", "20180101")]⟩
    ∧ (TailOut.date_and_file ⟨["a-b-c-d-20180101_x_dB.tif", "a-b-c-a-20171231_x_dB.tif"],
          ["a-b-c-d-20180101_x_dB-40_0.tif", "a-b-c-a-20171231_x_dB-40_0.tif"],
          ["a-b-c-d-20180101_x_dB-40_0.png", "a-b-c-a-20171231_x_dB-40_0.png"],
          [("a-b-c-a-20171231_x_dB-40_0.png", "20171231"),
           ("a-b-c-d-20180101_x_dB-40_0.png", "20180101")]⟩).Pairwise
        (fun a b => a.2 ≤ b.2) := by
  have hout : (procAfterCut envW false none none false none (-40) 0 [wFile, wFile2]).2
      = .ok ⟨["a-b-c-d-20180101_x_dB.tif", "a-b-c-a-20171231_x_dB.tif"],
          ["a-b-c-d-20180101_x_dB-40_0.tif", "a-b-c-a-20171231_x_dB-40_0.tif"],
          ["a-b-c-d-20180101_x_dB-40_0.png", "a-b-c-a-20171231_x_dB-40_0.png"],
          [("a-b-c-a-20171231_x_dB-40_0.png", "20171231"),
           ("a-b-c-d-20180101_x_dB-40_0.png", "20180101")]⟩ := by decide
  exact ⟨hout,
    (temporal_sort_spec envW false none none false none (-40) 0 [wFile, wFile2] _ hout).1⟩

/-! ## C9: amplitude/power round trip -/

/-- C9: for every raster whose pixel values are non-negative, squaring each
pixel (`amp2pwr`) and then taking the square root of each pixel (`pwr2amp`)
reproduces the original pixel values exactly over the idealized reals (hence
within floating-point tolerance in the implementation). -/
theorem amp_pwr_roundtrip (data : List ℝ) (h : ∀ v ∈ data, 0 ≤ v) :
    pwr2amp (amp2pwr data) = data := by
  unfold pwr2amp amp2pwr
  rw [List.map_map]
  induction data with
  | nil => rfl
  | cons v t ih =>
    have hv : 0 ≤ v := h v (List.mem_cons_self v t)
    have ht := ih (fun w hw => h w (List.mem_cons_of_mem v hw))
    simp only [List.map_cons, Function.comp_apply, ht, List.cons.injEq, and_true]
    exact Real.sqrt_mul_self hv

/-- Witness for C9 at the concrete raster `[0, 1, 2]`. -/
theorem amp_pwr_roundtrip_wit :
    (∀ v ∈ [(0 : ℝ), 1, 2], 0 ≤ v) ∧ pwr2amp (amp2pwr [(0 : ℝ), 1, 2]) = [0, 1, 2] :=
  ⟨by norm_num, amp_pwr_roundtrip [0, 1, 2] (by norm_num)⟩

/-! ## C10: the flight-direction keep filter -/

/-- C10: the flight-direction cull runs only when the caller supplied no
explicit input files.  A non-empty explicit list survives normalization, so
`directionStage` passes the catalog through unchanged for any keep value;
with no explicit files the cull runs, and it keeps exactly the scenes whose
XML flight direction extracts to the requested value — scenes whose
direction differs or is unknown are discarded. -/
theorem direction_filter_only_discovered (env : Env) (k : String)
    (l fl xmls : List String) (dir : String) (keep : Option String)
    (hl : l ≠ []) (hx : getXmlFiles env fl = .ok xmls) :
    normalizeInfiles (some l) = some l
    ∧ directionStage env keep (normalizeInfiles (some l)) fl = .ok fl
    ∧ directionStage env (some k) none fl = cull_list_by_direction env fl k
    ∧ cull_list_by_direction env fl dir
      = .ok ((fl.zip xmls).filterMap
          (fun fx => if getAscDesc (env.xmlLines fx.2) = some dir then some fx.1 else none)) := by
  have hnorm : normalizeInfiles (some l) = some l := by
    unfold normalizeInfiles
    dsimp only
    rw [if_neg (by simpa [List.length_eq_zero] using hl)]
  refine ⟨hnorm, ?_, ?_, ?_⟩
  · rw [hnorm]
    unfold directionStage
    simp
  · unfold directionStage
    simp
  · unfold cull_list_by_direction
    rw [hx]

/-- Witness for C10: with explicit infiles nothing is culled; on the
discovery path with keep `a`, exactly the ascending scene is kept. -/
theorem direction_filter_only_discovered_wit :
    ((["f.tif"] : List String) ≠ []
      ∧ getXmlFiles envDir ["a-b-c-d-20180101_x.tif", "a-b-c-d-20180102_x.tif"]
          = .ok ["x1.iso.xml", "x2.iso.xml"])
    ∧ directionStage envDir (some "a") (normalizeInfiles (some ["f.tif"]))
        ["a-b-c-d-20180101_x.tif", "a-b-c-d-20180102_x.tif"]
      = .ok ["a-b-c-d-20180101_x.tif", "a-b-c-d-20180102_x.tif"]
    ∧ cull_list_by_direction envDir
        ["a-b-c-d-20180101_x.tif", "a-b-c-d-20180102_x.tif"] "a"
      = .ok ((["a-b-c-d-20180101_x.tif", "a-b-c-d-20180102_x.tif"].zip
            ["x1.iso.xml", "x2.iso.xml"]).filterMap
          (fun fx => if getAscDesc (envDir.xmlLines fx.2) = some "a"
            then some fx.1 else none)) := by
  have hx : getXmlFiles envDir ["a-b-c-d-20180101_x.tif", "a-b-c-d-20180102_x.tif"]
      = .ok ["x1.iso.xml", "x2.iso.xml"] := by decide
  have h := direction_filter_only_discovered envDir "a" ["f.tif"]
    ["a-b-c-d-20180101_x.tif", "a-b-c-d-20180102_x.tif"] ["x1.iso.xml", "x2.iso.xml"]
    "a" (some "a") (by decide) hx
  exact ⟨⟨by decide, hx⟩, h.2.1, h.2.2.2⟩

end ProcS1
